import Mathlib

/-!
Verification of the imapclient response parser
(`imapclient/response_parser.py`) against its design specification.

The parser's data model and operations are embedded shallowly:

* `ParsedValue` is the universal parse result (Python `None` / `int` /
  `str` / `tuple` as produced by `atom`).
* `Token` models one token of the lexer's stream together with the
  literal payload positionally bound to it (`src.current_literal`).
* Errors are modelled by `Err`, one constructor per Python exception
  class that the code can raise (`ParseError`, `ValueError`, `KeyError`,
  `AttributeError`).
* Recursion in `atom` (and the generator consumption loops) is expressed
  with an explicit fuel argument so that every definition is a
  computable structural recursion; all entry points supply fuel
  `tokens.length + 1`, which is sufficient because every recursive step
  consumes at least one token.
-/

namespace Imap

/-- The universal parse result produced by `atom`: Python `None`,
`int`, `str` and `tuple` values (spec §3, `ParsedValue`). -/
inductive ParsedValue where
  | nil
  | int (n : Int)
  | text (s : String)
  | list (vs : List ParsedValue)

/-- One token of the lexer's stream: its text plus the literal payload
positionally bound to it (`src.current_literal`), if any. -/
structure Token where
  text : String
  lit : Option String
deriving DecidableEq

/-- Errors, one constructor per Python exception class raised by the
parsing code: `ParseError` (a `ValueError` subclass defined by the
module), plain `ValueError`, `KeyError`, `AttributeError` and
`OverflowError` (raised by datetime arithmetic that leaves the
representable year range). -/
inductive Err where
  | parseError (msg : String)
  | valueError (msg : String)
  | keyError (msg : String)
  | attributeError (msg : String)
  | overflowError (msg : String)
deriving DecidableEq

/-- Holds exactly for `Err.parseError`, i.e. for errors that are
instances of the module's `ParseError` class. -/
def Err.isParseError : Err → Bool
  | .parseError _ => true
  | _ => false

/-! ### Python primitives used by the source -/

/-- Numeric value of a decimal digit string (used by Python `int()` on
an all-digit token). -/
def digitsToNat (ds : List Char) : Nat :=
  ds.foldl (fun acc c => 10 * acc + (c.toNat - '0'.toNat)) 0

/-- Python 2 `int(s)` on a byte string: strip surrounding whitespace,
allow an optional sign, then require at least one decimal digit and
nothing else; `none` models the raised `ValueError`. -/
def pyIntOfString (s : String) : Option Int :=
  let cs := ((s.data.dropWhile Char.isWhitespace).reverse.dropWhile Char.isWhitespace).reverse
  match cs with
  | '-' :: ds =>
      if ds ≠ [] ∧ ds.all Char.isDigit then some (-(digitsToNat ds : Int)) else none
  | '+' :: ds =>
      if ds ≠ [] ∧ ds.all Char.isDigit then some ((digitsToNat ds : Int)) else none
  | ds =>
      if ds ≠ [] ∧ ds.all Char.isDigit then some ((digitsToNat ds : Int)) else none

/-- ASCII upper-casing of one character, as Python `str.upper` does on
byte strings. -/
def upChar (c : Char) : Char :=
  if 'a' ≤ c ∧ c ≤ 'z' then Char.ofNat (c.toNat - 32) else c

/-- Python 2 `str.upper()` (ASCII only). -/
def pyUpper (s : String) : String := String.mk (s.data.map upChar)

/-- Python `repr` of a byte string (single quotes; backslash and quote
escaped; other escape sequences do not occur in the strings handled by
the theorems below). -/
def pyReprStr (s : String) : String :=
  "'" ++ String.mk (s.data.flatMap fun c =>
    if c = '\\' then ['\\', '\\']
    else if c = '\'' then ['\\', '\'']
    else [c]) ++ "'"

/-- Join with a separator, as Python `sep.join(...)`. -/
def joinSep (sep : String) : List String → String
  | [] => ""
  | [x] => x
  | x :: xs => x ++ sep ++ joinSep sep xs

mutual

/-- Python `repr` of a `ParsedValue`: `None`, decimal integers, quoted
strings and parenthesised tuples (with Python's trailing comma for
one-element tuples). -/
def pyRepr : ParsedValue → String
  | .nil => "None"
  | .int n => toString n
  | .text s => pyReprStr s
  | .list vs => "(" ++ joinSep ", " (pyReprL vs) ++ (if vs.length = 1 then ",)" else ")")

/-- The function `pyRepr` mapped over a list of values. -/
def pyReprL : List ParsedValue → List String
  | [] => []
  | v :: vs => pyRepr v :: pyReprL vs

end

/-- Python `str` of a `ParsedValue` (`str` of a string is itself,
everything else coincides with `repr`). -/
def pyStr : ParsedValue → String
  | .text s => s
  | v => pyRepr v

/-- Python `int(value)` applied to a `ParsedValue`: integers pass
through, strings are parsed as integer literals, `None` and tuples are
a `TypeError`/`ValueError` (`none`). -/
def pyInt : ParsedValue → Option Int
  | .int n => some n
  | .text s => pyIntOfString s
  | _ => none

/-! ### Lexer

`response_lexer.py` is not part of the sources under verification, so
the token source is modelled from the spec. -/

/-- Lexing mode: inside a plain atom, inside a double-quoted string, or
just after a backslash inside a double-quoted string. -/
inductive LexMode where
  | plain
  | quoted
  | escaped
deriving DecidableEq

/-- Modelled from the spec: the Lexer's token-boundary rules
(`response_lexer.py` is not in the sources). Whitespace separates
atoms; `(` and `)` are standalone tokens even when adjacent to other
text; a double-quoted run is one token (kept with its delimiting
quotes, honouring the backslash-quote rule); every other maximal run of
characters is one atom token. -/
def lexRun : List Char → Option (LexMode × List Char) → List String
  | [], none => []
  | [], some (_, acc) => [String.mk acc]
  | c :: rest, none =>
      if c.isWhitespace then lexRun rest none
      else if c = '(' ∨ c = ')' then String.mk [c] :: lexRun rest none
      else if c = '"' then lexRun rest (some (.quoted, ['"']))
      else lexRun rest (some (.plain, [c]))
  | c :: rest, some (.plain, acc) =>
      if c.isWhitespace then String.mk acc :: lexRun rest none
      else if c = '(' ∨ c = ')' then String.mk acc :: String.mk [c] :: lexRun rest none
      else if c = '"' then String.mk acc :: lexRun rest (some (.quoted, ['"']))
      else lexRun rest (some (.plain, acc ++ [c]))
  | c :: rest, some (.quoted, acc) =>
      if c = '\\' then lexRun rest (some (.escaped, acc ++ [c]))
      else if c = '"' then String.mk (acc ++ ['"']) :: lexRun rest none
      else lexRun rest (some (.quoted, acc ++ [c]))
  | c :: rest, some (.escaped, acc) => lexRun rest (some (.quoted, acc ++ [c]))

/-- Modelled from the spec: a token of the form `\x7bdigits\x7d` is a
literal marker that consumes the next unconsumed literal payload. -/
def isLitMarker (s : String) : Bool :=
  match s.data with
  | '{' :: rest =>
      decide (rest.getLast? = some '}' ∧ rest.dropLast ≠ [] ∧ rest.dropLast.all Char.isDigit)
  | _ => false

/-- Modelled from the spec: positional pairing of literal markers with
the provided payloads — the Nth marker in the text is bound to the Nth
payload; a marker beyond the end of the payload list is bound to
nothing (`src.current_literal is None`). -/
def attachLits : List String → List String → List Token
  | [], _ => []
  | t :: ts, lits =>
      if isLitMarker t then ⟨t, lits.head?⟩ :: attachLits ts (lits.drop 1)
      else ⟨t, none⟩ :: attachLits ts lits

/-- Modelled from the spec: `Lexer.create_token_source(text)` — the
full token stream for a response text with its out-of-band literal
payloads. -/
def lex (text : String) (lits : List String) : List Token :=
  attachLits (lexRun text.data none) lits

/-! ### Parser (`atom`) -/

/-- Python `token[1:-1]` — the text between the first and last character. -/
def tokenInner (s : String) : String := String.mk ((s.data.drop 1).dropLast)

/-- The non-parenthesis branches of the source's `atom`: `NIL`, literal
markers (declared length parsed by `int(token[1:-1])`, checked against
the bound payload), quoted strings (delimiting quotes stripped),
all-digit atoms (converted by `int`), all other atoms verbatim. -/
def scalarAtom (t : Token) : Except Err ParsedValue :=
  if t.text = "NIL" then .ok .nil
  else if t.text.data.head? = some '{' then
    match pyIntOfString (tokenInner t.text) with
    | none =>
        .error (.valueError ("invalid literal for int() with base 10: " ++
          pyReprStr (tokenInner t.text)))
    | some n =>
        match t.lit with
        | none => .error (.parseError ("No literal corresponds to " ++ pyReprStr t.text))
        | some litText =>
            if (litText.length : Int) ≠ n then
              .error (.parseError ("Expecting literal of size " ++ toString n ++
                ", got " ++ toString litText.length))
            else .ok (.text litText)
  else if 2 ≤ t.text.length ∧ t.text.data.head? = some '"' ∧ t.text.data.getLast? = some '"' then
    .ok (.text (tokenInner t.text))
  else if t.text.data ≠ [] ∧ t.text.data.all Char.isDigit then
    .ok (.int (digitsToNat t.text.data))
  else .ok (.text t.text)

/-- The `token == "("` branch of `atom`: collect values until the
matching `)`; running off the end of the token stream raises
`ParseError('Tuple incomplete before "(..."')` naming the partial
list. A nested `(` recurses; any other token goes through
`scalarAtom`. The fuel argument makes the recursion structural; it is
unreachable whenever `fuel > toks.length` since every step consumes a
token. -/
def atomGroup : Nat → List Token → List ParsedValue → Except Err (ParsedValue × List Token)
  | 0, _, _ => .error (.parseError "fuel exhausted (unreachable)")
  | _ + 1, [], out =>
      .error (.parseError ("Tuple incomplete before \"(" ++
        joinSep " " (out.map pyStr) ++ "\""))
  | fuel + 1, t :: rest, out =>
      if t.text = ")" then .ok (.list out, rest)
      else if t.text = "(" then
        match atomGroup fuel rest [] with
        | .ok (v, rest') => atomGroup fuel rest' (out ++ [v])
        | .error e => .error e
      else
        match scalarAtom t with
        | .ok v => atomGroup fuel rest (out ++ [v])
        | .error e => .error e

/-- The source's `atom(src, token)`: consume one value from the token
stream, returning it together with the unconsumed remainder. -/
def atom (t : Token) (rest : List Token) : Except Err (ParsedValue × List Token) :=
  if t.text = "(" then atomGroup (rest.length + 1) rest []
  else match scalarAtom t with
    | .ok v => .ok (v, rest)
    | .error e => .error e

/-- The exception handler of `gen_parsed_response`: a `ParseError` from
`atom` propagates unchanged, any other `ValueError` is wrapped into
`ParseError("%s: %s" % (str(err), token))` where `token` is the
top-level token being processed. -/
def wrapGenError (e : Err) (t : Token) : Err :=
  match e with
  | .valueError m => .parseError (m ++ ": " ++ t.text)
  | e => e

/-- The top-level loop of `gen_parsed_response`: repeatedly pull a
token and yield `atom(src, token)` until the stream is exhausted. -/
def genLoop : Nat → List Token → Except Err (List ParsedValue)
  | 0, _ => .error (.parseError "fuel exhausted (unreachable)")
  | _ + 1, [] => .ok []
  | fuel + 1, t :: rest =>
      match atom t rest with
      | .error e => .error (wrapGenError e t)
      | .ok (v, rest') =>
          match genLoop fuel rest' with
          | .ok vs => .ok (v :: vs)
          | .error e => .error e

/-- Source `gen_parsed_response(text)` applied to an already-lexed token
stream. -/
def gen_parsed_response (toks : List Token) : Except Err (List ParsedValue) :=
  genLoop (toks.length + 1) toks

/-- Source `parse_response(text)`: the tuple of all top-level parsed values.
The literal payloads extracted by the transport are an explicit
argument. -/
def parse_response (text : String) (lits : List String) : Except Err (List ParsedValue) :=
  gen_parsed_response (lex text lits)

/-! ### INTERNALDATE conversion

Naive datetimes are represented by their signed second count relative
to the Unix epoch, computed from the calendar fields by the standard
civil-calendar formula; a fixed-offset timezone is its offset in
minutes. `FixedOffset` (`fixed_offset.py`) is not in the sources:
modelled from the spec, `FixedOffset(m)` is a timezone at a fixed
`m`-minute offset from UTC and `FixedOffset.for_system()` is the host
system's zone, which (following the spec's design note on ambient
state) is passed to the decoder as an explicit parameter `sysOff`. -/

/-- Days from the epoch for a civil date (Gregorian calendar),
via the standard era/year-of-era/day-of-year formula. -/
def daysFromCivil (y m d : Int) : Int :=
  let y' := if m ≤ 2 then y - 1 else y
  let era := (if 0 ≤ y' then y' else y' - 399) / 400
  let yoe := y' - era * 400
  let doy := (153 * ((m + 9) % 12) + 2) / 5 + d - 1
  let doe := yoe * 365 + yoe / 4 - yoe / 100 + doy
  era * 146097 + doe - 719468

/-- Seconds from the epoch for naive calendar fields. -/
def civilSecs (y mo d h mi s : Int) : Int :=
  daysFromCivil y mo d * 86400 + h * 3600 + mi * 60 + s

/-- Length of a month in the Gregorian calendar. -/
def daysInMonth (y m : Int) : Int :=
  if m = 2 then (if y % 4 = 0 ∧ (y % 100 ≠ 0 ∨ y % 400 = 0) then 29 else 28)
  else if m = 4 ∨ m = 6 ∨ m = 9 ∨ m = 11 then 30 else 31

/-- The range checks performed by Python's `datetime` constructor. -/
def datetimeValid (y mo d h mi s : Int) : Prop :=
  1 ≤ y ∧ y ≤ 9999 ∧ 1 ≤ mo ∧ mo ≤ 12 ∧ 1 ≤ d ∧ d ≤ daysInMonth y mo ∧
    0 ≤ h ∧ h < 24 ∧ 0 ≤ mi ∧ mi < 60 ∧ 0 ≤ s ∧ s < 60

instance (y mo d h mi s : Int) : Decidable (datetimeValid y mo d h mi s) := by
  unfold datetimeValid; infer_instance

/-- Python `datetime(year, month, day, hour, minute, second)`: the
naive instant as epoch seconds, or `none` when the constructor would
raise `ValueError`. -/
def pyDatetime (y mo d h mi s : Int) : Option Int :=
  if datetimeValid y mo d h mi s then some (civilSecs y mo d h mi s) else none

/-- The groups captured by `imaplib.InternalDate`. -/
structure IDGroups where
  day : Int
  mon : String
  year : Int
  hour : Int
  minute : Int
  second : Int
  zonen : Bool
  zoneh : Int
  zonem : Int
deriving DecidableEq

/-- Numeric value of one digit character. -/
def digitVal (c : Char) : Int := (c.toNat : Int) - ('0'.toNat : Int)

/-- Model of Python's `imaplib.InternalDate` regex as applied by
`_convert_INTERNALDATE` to `'INTERNALDATE "%s"' % date_string`: the
date pattern `[ 0123][0-9]-[A-Z][a-z][a-z]-[0-9]{4}
[0-9]{2}:[0-9]{2}:[0-9]{2} [-+][0-9]{4}` must appear at the start of
`date_string` and be followed by the closing quote (either the one the
format string appends at the end, or a quote character inside
`date_string` itself; text after that quote is unconstrained). The
regex's greedy `.*` could in principle also re-anchor at an embedded
`INTERNALDATE "` substring inside `date_string`; such inputs cannot
reach this function from an IMAP response and are not modelled. -/
def internalDateMatch (s : String) : Option IDGroups :=
  match s.data with
  | d1 :: d2 :: '-' :: m1 :: m2 :: m3 :: '-' :: y1 :: y2 :: y3 :: y4 :: ' ' ::
    h1 :: h2 :: ':' :: n1 :: n2 :: ':' :: s1 :: s2 :: ' ' ::
    zn :: z1 :: z2 :: z3 :: z4 :: rest =>
      if (d1 = ' ' ∨ d1 = '0' ∨ d1 = '1' ∨ d1 = '2' ∨ d1 = '3') ∧ d2.isDigit ∧
          ('A' ≤ m1 ∧ m1 ≤ 'Z') ∧ ('a' ≤ m2 ∧ m2 ≤ 'z') ∧ ('a' ≤ m3 ∧ m3 ≤ 'z') ∧
          y1.isDigit ∧ y2.isDigit ∧ y3.isDigit ∧ y4.isDigit ∧
          h1.isDigit ∧ h2.isDigit ∧ n1.isDigit ∧ n2.isDigit ∧
          s1.isDigit ∧ s2.isDigit ∧
          (zn = '-' ∨ zn = '+') ∧
          z1.isDigit ∧ z2.isDigit ∧ z3.isDigit ∧ z4.isDigit ∧
          (rest = [] ∨ rest.head? = some '"') then
        some {
          day := (if d1 = ' ' then 0 else digitVal d1 * 10) + digitVal d2
          mon := String.mk [m1, m2, m3]
          year := digitVal y1 * 1000 + digitVal y2 * 100 + digitVal y3 * 10 + digitVal y4
          hour := digitVal h1 * 10 + digitVal h2
          minute := digitVal n1 * 10 + digitVal n2
          second := digitVal s1 * 10 + digitVal s2
          zonen := zn = '-'
          zoneh := digitVal z1 * 10 + digitVal z2
          zonem := digitVal z3 * 10 + digitVal z4 }
      else none
  | _ => none

/-- Python `imaplib.Mon2num`: month abbreviation to month number; a missing
key is a Python `KeyError`. -/
def Mon2num (m : String) : Option Int :=
  match m with
  | "Jan" => some 1 | "Feb" => some 2 | "Mar" => some 3 | "Apr" => some 4
  | "May" => some 5 | "Jun" => some 6 | "Jul" => some 7 | "Aug" => some 8
  | "Sep" => some 9 | "Oct" => some 10 | "Nov" => some 11 | "Dec" => some 12
  | _ => none

/-- The declared zone offset in minutes: `zonem = zoneh*60 + zonem`,
negated when the sign group is `-`. -/
def zoneOffsetMinutes (g : IDGroups) : Int :=
  if g.zonen then -(g.zoneh * 60 + g.zonem) else g.zoneh * 60 + g.zonem

/-- The smallest naive datetime Python can represent,
`datetime.min = 0001-01-01 00:00:00`, as epoch seconds. -/
def datetimeMinSecs : Int := civilSecs 1 1 1 0 0 0

/-- The largest whole-second naive datetime Python can represent,
`9999-12-31 23:59:59`, as epoch seconds. -/
def datetimeMaxSecs : Int := civilSecs 9999 12 31 23 59 59

/-- Whether an epoch-second instant lies within Python's representable
datetime range (years 1..9999); datetime arithmetic that leaves this
range raises `OverflowError('date value out of range')`
(CPython's `normalize_date`). -/
def inDatetimeRange (t : Int) : Prop := datetimeMinSecs ≤ t ∧ t ≤ datetimeMaxSecs

instance (t : Int) : Decidable (inDatetimeRange t) := by
  unfold inDatetimeRange; infer_instance

/-- Source `_convert_INTERNALDATE(date_string)`: match the value (formatted by
`%s`) against `imaplib.InternalDate` — a failed match raises plain
`ValueError("couldn't parse date %r")` — then build an aware datetime
with the declared fixed offset and re-express it in the host zone
(`astimezone(FixedOffset.for_system()).replace(tzinfo=None)`).
Python 2.7's `astimezone` proceeds in steps, each of which can raise:
(1) `self.utcoffset()` is validated by `check_utc_offset` — it must be
a whole number of minutes strictly inside one day, else `ValueError`
(the message here approximates CPython's wording; no theorem depends
on it); (2) `self - offset` converts to UTC, and its normalisation
raises `OverflowError('date value out of range')` if the year leaves
1..9999; (3) `tzinfo.fromutc` validates the host zone's offset the
same way and adds it, normalising with the same overflow check (when
the host offset is zero the addition is skipped, which is
behaviourally identical to checking the unchanged value);
(4) `.replace(tzinfo=None)` drops the zone. -/
def _convert_INTERNALDATE (sysOff : Int) (value : ParsedValue) : Except Err Int :=
  match internalDateMatch (pyStr value) with
  | none => .error (.valueError ("couldn't parse date " ++ pyRepr value))
  | some g =>
      match Mon2num g.mon with
      | none => .error (.keyError (pyReprStr g.mon))
      | some mon =>
          match pyDatetime g.year mon g.day g.hour g.minute g.second with
          | none => .error (.valueError "datetime field out of range")
          | some naiveSecs =>
              if -1440 < zoneOffsetMinutes g ∧ zoneOffsetMinutes g < 1440 then
                if inDatetimeRange (naiveSecs - zoneOffsetMinutes g * 60) then
                  if -1440 < sysOff ∧ sysOff < 1440 then
                    if inDatetimeRange (naiveSecs - zoneOffsetMinutes g * 60 +
                        sysOff * 60) then
                      .ok (naiveSecs - zoneOffsetMinutes g * 60 + sysOff * 60)
                    else .error (.overflowError "date value out of range")
                  else .error
                    (.valueError "tzinfo.utcoffset() returned an offset out of range")
                else .error (.overflowError "date value out of range")
              else .error
                (.valueError "tzinfo.utcoffset() returned an offset out of range")

/-! ### FETCH semantic decoder (`parse_fetch_response`) -/

/-- A decoded field value: either a parsed value stored verbatim or
the naive local datetime produced for `INTERNALDATE`. -/
inductive FieldVal where
  | pv (v : ParsedValue)
  | dt (seconds : Int)

/-- A message's field record (`msg_data`); keyed by canonical
upper-case field name. Python dict order is not observable, so only
`assocFind` matters. -/
abbrev FetchRecord := List (String × FieldVal)

/-- The response table (`parsed_response`), keyed by message number or
UID. -/
abbrev FetchDict := List (Int × FetchRecord)

/-- Assignment `d[k] = v` on a Python dict modelled as an association list:
replace the binding if the key is present, else append. -/
def updAssoc {α β : Type} [DecidableEq α] : List (α × β) → α → β → List (α × β)
  | [], k, v => [(k, v)]
  | (k', v') :: rest, k, v =>
      if k' = k then (k', v) :: rest else (k', v') :: updAssoc rest k v

/-- Lookup `d.get(k)` on a Python dict modelled as an association list. -/
def assocFind {α β : Type} [DecidableEq α] : List (α × β) → α → Option β
  | [], _ => none
  | (k', v') :: rest, k => if k' = k then some v' else assocFind rest k

/-- Source `_int_or_error(value, error_text)`: Python `int()` on the value, a
conversion failure raising `ParseError('%s: %s' % (error_text,
repr(value)))`. -/
def _int_or_error (v : ParsedValue) (errorText : String) : Except Err Int :=
  match pyInt v with
  | some n => .ok n
  | none => .error (.parseError (errorText ++ ": " ++ pyRepr v))

/-- The field list grouped in twos, as `xrange(0, len, 2)` walks it
(`msg_response[i]`, `msg_response[i+1]`); only reached after the even
length check. -/
def toPairs : List ParsedValue → List (ParsedValue × ParsedValue)
  | a :: b :: rest => (a, b) :: toPairs rest
  | _ => []

/-- Python type name of a `ParsedValue`, for `AttributeError`
messages. -/
def pyTypeName : ParsedValue → String
  | .nil => "NoneType"
  | .int _ => "int"
  | .text _ => "str"
  | .list _ => "tuple"

/-- The per-field loop of `parse_fetch_response`: upper-case the field
name (`AttributeError` on a non-string name), substitute the table key
on `UID` (without storing a `UID` entry), convert `INTERNALDATE`, and
store every other field verbatim; returns the final key and record. -/
def fieldsLoop (sysOff : Int) :
    List (ParsedValue × ParsedValue) → Int → FetchRecord → Except Err (Int × FetchRecord)
  | [], msgId, msgData => .ok (msgId, msgData)
  | (name, value) :: rest, msgId, msgData =>
      match name with
      | .text s =>
          let word := pyUpper s
          if word = "UID" then
            match _int_or_error value "invalid UID" with
            | .ok u => fieldsLoop sysOff rest u msgData
            | .error e => .error e
          else if word = "INTERNALDATE" then
            match _convert_INTERNALDATE sysOff value with
            | .ok secs => fieldsLoop sysOff rest msgId (updAssoc msgData word (.dt secs))
            | .error e => .error e
          else fieldsLoop sysOff rest msgId (updAssoc msgData word (.pv value))
      | v => .error (.attributeError
          ("'" ++ pyTypeName v ++ "' object has no attribute 'upper'"))

/-- Processing of one `(msg_id, msg_response)` pair after the message
id has been converted: `msg_response` must be a tuple (else
`ParseError('bad response type: ...')`) of even length (else
`ParseError('uneven number of response items: ...')`); the record
starts as `{'SEQ': msg_id}` and the table entry is stored under the
final key. -/
def processMsg (sysOff : Int) (msgId : Int) (msgResponse : ParsedValue)
    (acc : FetchDict) : Except Err FetchDict :=
  match msgResponse with
  | .list fields =>
      if fields.length % 2 = 1 then
        .error (.parseError ("uneven number of response items: " ++
          pyRepr (.list fields)))
      else
        match fieldsLoop sysOff (toPairs fields) msgId
            [("SEQ", FieldVal.pv (.int msgId))] with
        | .ok (key, rec) => .ok (updAssoc acc key rec)
        | .error e => .error e
  | v => .error (.parseError ("bad response type: " ++ pyRepr v))

/-- The main loop of `parse_fetch_response`: pull a message id from the
generator (`StopIteration` ends the loop), convert it with
`_int_or_error(..., 'invalid message ID')`, pull the field list
(`StopIteration` here raises `ParseError('unexpected EOF')`) and
process the pair. Errors raised while the generator runs are wrapped
exactly as in `gen_parsed_response`. -/
def pfrLoop (sysOff : Int) : Nat → List Token → FetchDict → Except Err FetchDict
  | 0, _, _ => .error (.parseError "fuel exhausted (unreachable)")
  | _ + 1, [], acc => .ok acc
  | fuel + 1, t :: rest, acc =>
      match atom t rest with
      | .error e => .error (wrapGenError e t)
      | .ok (v₁, rest₁) =>
          match _int_or_error v₁ "invalid message ID" with
          | .error e => .error e
          | .ok msgId =>
              match rest₁ with
              | [] => .error (.parseError "unexpected EOF")
              | t₂ :: rest₂ =>
                  match atom t₂ rest₂ with
                  | .error e => .error (wrapGenError e t₂)
                  | .ok (v₂, rest₃) =>
                      match processMsg sysOff msgId v₂ acc with
                      | .error e => .error e
                      | .ok acc' => pfrLoop sysOff fuel rest₃ acc'

/-- Source `parse_fetch_response(text)`: the per-message field records of one
FETCH response batch, keyed by sequence number or UID. `sysOff` is the
host system zone's offset in minutes (spec §9: the ambient
`FixedOffset.for_system()` is passed explicitly). -/
def parse_fetch_response (sysOff : Int) (text : String) (lits : List String) :
    Except Err FetchDict :=
  let toks := lex text lits
  pfrLoop sysOff (toks.length + 1) toks []

/-! ### Observation helpers used only in theorem statements -/

/-- Whether the field name of a pair upper-cases to `k` (the record key
the `parse_fetch_response` loop would use for it). -/
def wordIs (p : ParsedValue × ParsedValue) (k : String) : Bool :=
  match p.1 with
  | .text s => decide (pyUpper s = k)
  | _ => false

/-- Whether a pair is a `UID` field (case-insensitively). -/
def isUIDPair (p : ParsedValue × ParsedValue) : Bool := wordIs p "UID"

/-- The function `scalarAtom` mapped over a token list, stopping at the first
error. -/
def mapScalar : List Token → Except Err (List ParsedValue)
  | [] => .ok []
  | t :: ts =>
      match scalarAtom t with
      | .ok v =>
          match mapScalar ts with
          | .ok vs => .ok (v :: vs)
          | .error e => .error e
      | .error e => .error e

end Imap

namespace Imap

/-! ### Helper lemmas -/

lemma assocFind_upd {α β : Type} [DecidableEq α] (l : List (α × β)) (w k : α) (x : β) :
    assocFind (updAssoc l w x) k = if w = k then some x else assocFind l k := by
  induction l with
  | nil => simp [updAssoc, assocFind]
  | cons hd tl ih =>
      obtain ⟨k', v'⟩ := hd
      by_cases h1 : k' = w
      · subst h1
        by_cases h2 : k' = k <;> simp [updAssoc, assocFind, h2]
      · by_cases h2 : k' = k
        · subst h2
          have hw : ¬(w = k') := fun h => h1 h.symm
          simp [updAssoc, assocFind, h1, hw]
        · simp [updAssoc, assocFind, h1, h2, ih]

lemma fieldsLoop_append (sysOff : Int) (xs ys : List (ParsedValue × ParsedValue)) :
    ∀ (i : Int) (r : FetchRecord),
      fieldsLoop sysOff (xs ++ ys) i r =
        match fieldsLoop sysOff xs i r with
        | .ok p => fieldsLoop sysOff ys p.1 p.2
        | .error e => .error e := by
  induction xs with
  | nil => intro i r; simp [fieldsLoop]
  | cons hd tl ih =>
      intro i r
      obtain ⟨name, value⟩ := hd
      cases name with
      | text s =>
          simp only [List.cons_append, fieldsLoop]
          by_cases h1 : pyUpper s = "UID"
          · rw [if_pos h1, if_pos h1]
            cases _int_or_error value "invalid UID" with
            | ok u => exact ih u r
            | error e => rfl
          · rw [if_neg h1, if_neg h1]
            by_cases h2 : pyUpper s = "INTERNALDATE"
            · rw [if_pos h2, if_pos h2]
              cases _convert_INTERNALDATE sysOff value with
              | ok d => exact ih _ _
              | error e => rfl
            · rw [if_neg h2, if_neg h2]; exact ih _ _
      | nil => rfl
      | int n => rfl
      | list vs => rfl

lemma fieldsLoop_key_no_uid (sysOff : Int) :
    ∀ (xs : List (ParsedValue × ParsedValue)) (i : Int) (r : FetchRecord)
      (key : Int) (rec : FetchRecord),
      (∀ p ∈ xs, isUIDPair p = false) →
      fieldsLoop sysOff xs i r = .ok (key, rec) → key = i := by
  intro xs
  induction xs with
  | nil =>
      intro i r key rec _ h
      simp only [fieldsLoop] at h
      exact (congrArg Prod.fst (Except.ok.inj h)).symm
  | cons hd tl ih =>
      intro i r key rec hno h
      obtain ⟨name, value⟩ := hd
      cases name with
      | text s =>
          have hu : pyUpper s ≠ "UID" := by
            have := hno (.text s, value) (by simp)
            simpa [isUIDPair, wordIs] using this
          simp only [fieldsLoop, if_neg hu] at h
          by_cases h2 : pyUpper s = "INTERNALDATE"
          · rw [if_pos h2] at h
            cases hc : _convert_INTERNALDATE sysOff value with
            | ok d =>
                rw [hc] at h
                exact ih i _ key rec (fun p hp => hno p (by simp [hp])) h
            | error e => rw [hc] at h; cases h
          · rw [if_neg h2] at h
            exact ih i _ key rec (fun p hp => hno p (by simp [hp])) h
      | nil => simp [fieldsLoop] at h
      | int n => simp [fieldsLoop] at h
      | list vs => simp [fieldsLoop] at h

lemma fieldsLoop_find_preserve (sysOff : Int) (k : String) :
    ∀ (xs : List (ParsedValue × ParsedValue)) (i : Int) (r : FetchRecord)
      (key : Int) (rec : FetchRecord),
      (∀ p ∈ xs, wordIs p k = false) →
      fieldsLoop sysOff xs i r = .ok (key, rec) →
      assocFind rec k = assocFind r k := by
  intro xs
  induction xs with
  | nil =>
      intro i r key rec _ h
      simp only [fieldsLoop] at h
      cases h
      rfl
  | cons hd tl ih =>
      intro i r key rec hno h
      obtain ⟨name, value⟩ := hd
      cases name with
      | text s =>
          have hw : pyUpper s ≠ k := by
            have := hno (.text s, value) (by simp)
            simpa [wordIs] using this
          have htl : ∀ p ∈ tl, wordIs p k = false := fun p hp => hno p (by simp [hp])
          simp only [fieldsLoop] at h
          by_cases h1 : pyUpper s = "UID"
          · rw [if_pos h1] at h
            cases hc : _int_or_error value "invalid UID" with
            | ok u => rw [hc] at h; exact ih _ _ key rec htl h
            | error e => rw [hc] at h; cases h
          · rw [if_neg h1] at h
            by_cases h2 : pyUpper s = "INTERNALDATE"
            · rw [if_pos h2] at h
              cases hc : _convert_INTERNALDATE sysOff value with
              | ok d =>
                  rw [hc] at h
                  rw [ih _ _ key rec htl h, assocFind_upd, if_neg hw]
              | error e => rw [hc] at h; cases h
            · rw [if_neg h2] at h
              rw [ih _ _ key rec htl h, assocFind_upd, if_neg hw]
      | nil => simp [fieldsLoop] at h
      | int n => simp [fieldsLoop] at h
      | list vs => simp [fieldsLoop] at h

lemma fieldsLoop_keys (sysOff : Int) (k : String) :
    ∀ (xs : List (ParsedValue × ParsedValue)) (i : Int) (r : FetchRecord)
      (key : Int) (rec : FetchRecord),
      fieldsLoop sysOff xs i r = .ok (key, rec) →
      ((assocFind rec k).isSome ↔
        ((assocFind r k).isSome ∨ (k ≠ "UID" ∧ ∃ p ∈ xs, wordIs p k = true))) := by
  intro xs
  induction xs with
  | nil =>
      intro i r key rec h
      simp only [fieldsLoop] at h
      cases h
      simp
  | cons hd tl ih =>
      intro i r key rec h
      obtain ⟨name, value⟩ := hd
      cases name with
      | text s =>
          have hhd : ∀ k', wordIs (ParsedValue.text s, value) k' = true ↔ pyUpper s = k' := by
            intro k'; simp [wordIs]
          simp only [fieldsLoop] at h
          by_cases h1 : pyUpper s = "UID"
          · rw [if_pos h1] at h
            cases hc : _int_or_error value "invalid UID" with
            | ok u =>
                rw [hc] at h
                rw [ih _ _ key rec h]
                constructor
                · rintro (hr | ⟨hk, p, hp, hwp⟩)
                  · exact Or.inl hr
                  · exact Or.inr ⟨hk, p, List.mem_cons_of_mem _ hp, hwp⟩
                · rintro (hr | ⟨hk, p, hp, hwp⟩)
                  · exact Or.inl hr
                  · rcases List.mem_cons.mp hp with he | hp'
                    · subst he
                      exact absurd (h1 ▸ (hhd k).mp hwp).symm hk
                    · exact Or.inr ⟨hk, p, hp', hwp⟩
            | error e => rw [hc] at h; cases h
          · rw [if_neg h1] at h
            have hstep : ∀ fv rec4,
                fieldsLoop sysOff tl i (updAssoc r (pyUpper s) fv) = .ok (key, rec4) →
                ((assocFind rec4 k).isSome ↔
                  ((assocFind r k).isSome ∨
                    (k ≠ "UID" ∧ ∃ p ∈ (ParsedValue.text s, value) :: tl, wordIs p k = true))) := by
              intro fv rec4 h4
              rw [ih _ _ key rec4 h4, assocFind_upd]
              by_cases hk : pyUpper s = k
              · rw [if_pos hk]
                simp only [Option.isSome_some, true_or, true_iff]
                refine Or.inr ⟨fun hku => h1 (hk.trans hku),
                  (ParsedValue.text s, value), List.mem_cons_self _ _, (hhd k).mpr hk⟩
              · rw [if_neg hk]
                constructor
                · rintro (hr | ⟨hne, p, hp, hwp⟩)
                  · exact Or.inl hr
                  · exact Or.inr ⟨hne, p, List.mem_cons_of_mem _ hp, hwp⟩
                · rintro (hr | ⟨hne, p, hp, hwp⟩)
                  · exact Or.inl hr
                  · rcases List.mem_cons.mp hp with he | hp'
                    · subst he
                      exact absurd ((hhd k).mp hwp) hk
                    · exact Or.inr ⟨hne, p, hp', hwp⟩
            by_cases h2 : pyUpper s = "INTERNALDATE"
            · rw [if_pos h2] at h
              cases hc : _convert_INTERNALDATE sysOff value with
              | ok d => rw [hc] at h; exact hstep _ _ h
              | error e => rw [hc] at h; cases h
            · rw [if_neg h2] at h
              exact hstep _ _ h
      | nil => simp [fieldsLoop] at h
      | int n => simp [fieldsLoop] at h
      | list vs => simp [fieldsLoop] at h

lemma fieldsLoop_bad_uid_not_ok (sysOff : Int) (uidName : String) (v : ParsedValue)
    (hn : pyUpper uidName = "UID") (hv : pyInt v = none) :
    ∀ (xs : List (ParsedValue × ParsedValue)) (i : Int) (r : FetchRecord),
      (ParsedValue.text uidName, v) ∈ xs →
      ∀ (key : Int) (rec : FetchRecord), fieldsLoop sysOff xs i r ≠ .ok (key, rec) := by
  intro xs
  induction xs with
  | nil => intro i r hmem; cases hmem
  | cons hd tl ih =>
      intro i r hmem key rec h
      rcases List.mem_cons.mp hmem with hhd | htl
      · rw [← hhd] at h
        simp only [fieldsLoop, if_pos hn, _int_or_error, hv] at h
        exact Except.noConfusion h
      · obtain ⟨name, value⟩ := hd
        cases name with
        | text s =>
            simp only [fieldsLoop] at h
            by_cases h1 : pyUpper s = "UID"
            · rw [if_pos h1] at h
              cases hc : _int_or_error value "invalid UID" with
              | ok u => rw [hc] at h; exact ih _ _ htl key rec h
              | error e => rw [hc] at h; cases h
            · rw [if_neg h1] at h
              by_cases h2 : pyUpper s = "INTERNALDATE"
              · rw [if_pos h2] at h
                cases hc : _convert_INTERNALDATE sysOff value with
                | ok d => rw [hc] at h; exact ih _ _ htl key rec h
                | error e => rw [hc] at h; cases h
              · rw [if_neg h2] at h
                exact ih _ _ htl key rec h
        | nil => simp [fieldsLoop] at h
        | int n => simp [fieldsLoop] at h
        | list vs => simp [fieldsLoop] at h

lemma atomGroup_incomplete :
    ∀ (pre : List Token) (fuel : Nat) (out vals : List ParsedValue),
      pre.length < fuel →
      (∀ t ∈ pre, t.text ≠ "(" ∧ t.text ≠ ")") →
      mapScalar pre = .ok vals →
      atomGroup fuel pre out =
        .error (.parseError ("Tuple incomplete before \"(" ++
          joinSep " " ((out ++ vals).map pyStr) ++ "\"")) := by
  intro pre
  induction pre with
  | nil =>
      intro fuel out vals hfuel _ hmap
      cases fuel with
      | zero => omega
      | succ f =>
          simp only [mapScalar, Except.ok.injEq] at hmap
          subst hmap
          simp [atomGroup]
  | cons t tl ih =>
      intro fuel out vals hfuel hnp hmap
      cases fuel with
      | zero => omega
      | succ f =>
          obtain ⟨hto, htc⟩ := hnp t (by simp)
          simp only [mapScalar] at hmap
          cases hs : scalarAtom t with
          | error e => rw [hs] at hmap; cases hmap
          | ok v =>
              rw [hs] at hmap
              cases hm : mapScalar tl with
              | error e => rw [hm] at hmap; cases hmap
              | ok vs =>
                  rw [hm] at hmap
                  cases hmap
                  simp only [atomGroup, if_neg htc, if_neg hto, hs]
                  rw [ih f (out ++ [v]) vs (by simp at hfuel ⊢; omega)
                    (fun u hu => hnp u (by simp [hu])) hm]
                  simp

/-! ### Claim theorems -/

/-- Claim C2: `parse` maps the spec's example inputs to exactly the
stated nested tuples — quoted strings lose their delimiting quotes,
all-digit atoms become integers, `NIL` becomes the null value, and
parenthesised groups become lists mirroring the input nesting at
arbitrary depth. -/
theorem parse_examples :
    parse_response "\"TEST\"" [] = .ok [.text "TEST"] ∧
    parse_response "45" [] = .ok [.int 45] ∧
    parse_response "NIL" [] = .ok [.nil] ∧
    parse_response "()" [] = .ok [.list []] ∧
    parse_response "(123 \"foo\")" [] = .ok [.list [.int 123, .text "foo"]] ∧
    parse_response "(123 \"foo\" ((0 1 2) \"more\" NIL) 66)" [] =
      .ok [.list [.int 123, .text "foo",
        .list [.list [.int 0, .int 1, .int 2], .text "more", .nil], .int 66]] :=
  ⟨rfl, rfl, rfl, rfl, rfl, rfl⟩

/-- Claim C4: decoding is purely functional — `parse_response` and
`parse_fetch_response` depend only on their arguments (the embedding of
the source has no cross-call state, matching the source, which keeps
none), so two runs on the same input yield identical results and
repeated decoding is idempotent. -/
theorem decode_deterministic (sysOff : Int) (text : String) (lits : List String) :
    parse_response text lits = parse_response text lits ∧
    parse_fetch_response sysOff text lits = parse_fetch_response sysOff text lits :=
  ⟨rfl, rfl⟩

/-- Claim C7: a message whose field list has an odd number of elements
makes the decoder raise `ParseError('uneven number of response items:
...')` rather than return a partial record; in particular the field
list `FOO 1 BAR`. -/
theorem uneven_field_list_error :
    (∀ (sysOff msgId : Int) (fields : List ParsedValue) (acc : FetchDict),
      fields.length % 2 = 1 →
      processMsg sysOff msgId (.list fields) acc =
        .error (.parseError ("uneven number of response items: " ++
          pyRepr (.list fields)))) ∧
    parse_fetch_response 0 "9 (FOO 1 BAR)" [] =
      .error (.parseError "uneven number of response items: ('FOO', 1, 'BAR')") := by
  refine ⟨?_, rfl⟩
  intro sysOff msgId fields acc h
  simp [processMsg, h]

/-- Witness for `uneven_field_list_error` at the concrete odd field
list `FOO 1 BAR`. -/
theorem uneven_field_list_error_witness :
    processMsg 0 9 (.list [.text "FOO", .int 1, .text "BAR"]) [] =
      .error (.parseError "uneven number of response items: ('FOO', 1, 'BAR')") :=
  uneven_field_list_error.1 0 9 [.text "FOO", .int 1, .text "BAR"] [] (by decide)

/-- Claim C8 (counterexample): a batch whose first value is the *Text*
value `7` (from the quoted string `"7"`) does not raise `invalid
message ID` — Python `int()` converts it, and decoding succeeds with
key 7. -/
theorem message_id_text_accepted_cex :
    parse_fetch_response 0 "\"7\" (FOO 1)" [] =
      .ok [(7, [("SEQ", .pv (.int 7)), ("FOO", .pv (.int 1))])] := rfl

/-- Claim C8 (amended): the first value of each pair must be
convertible by Python `int()`: an `Integer` is returned as is, a `Text`
whose content is a valid integer literal is converted, and every other
value (Nil, List, non-numeric Text) raises `ParseError('invalid message
ID: ...')`. -/
theorem message_id_int_conversion :
    (∀ v : ParsedValue, pyInt v = none →
      _int_or_error v "invalid message ID" =
        .error (.parseError ("invalid message ID: " ++ pyRepr v))) ∧
    (∀ (v : ParsedValue) (n : Int), pyInt v = some n →
      _int_or_error v "invalid message ID" = .ok n) ∧
    parse_fetch_response 0 "NIL (FOO 1)" [] =
      .error (.parseError "invalid message ID: None") := by
  refine ⟨?_, ?_, rfl⟩
  · intro v h; simp [_int_or_error, h]
  · intro v n h; simp [_int_or_error, h]

/-- Witness for `message_id_int_conversion`: the Nil value raises
`invalid message ID`, and the text `7` converts to 7. -/
theorem message_id_int_conversion_witness :
    _int_or_error ParsedValue.nil "invalid message ID" =
      .error (.parseError "invalid message ID: None") ∧
    _int_or_error (ParsedValue.text "7") "invalid message ID" = .ok 7 :=
  ⟨message_id_int_conversion.1 ParsedValue.nil rfl,
   message_id_int_conversion.2.1 (ParsedValue.text "7") 7 rfl⟩

/-- Claim C9 (counterexample): on the malformed INTERNALDATE text
`garbage`, the decoder raises a plain `ValueError`, which is not an
instance of the module's typed `ParseError`. -/
theorem internaldate_error_kind_cex :
    parse_fetch_response 0 "1 (INTERNALDATE \"garbage\")" [] =
      .error (.valueError "couldn't parse date 'garbage'") ∧
    Err.isParseError (.valueError "couldn't parse date 'garbage'") = false :=
  ⟨rfl, rfl⟩

/-- Claim C9 (amended): INTERNALDATE text that does not match the
date-time grammar always raises an error at the point of failure
(never a null result) — but it is a plain
`ValueError("couldn't parse date %r")`, not the module's typed
`ParseError`. -/
theorem internaldate_malformed_raises :
    (∀ (sysOff : Int) (v : ParsedValue), internalDateMatch (pyStr v) = none →
      _convert_INTERNALDATE sysOff v =
        .error (.valueError ("couldn't parse date " ++ pyRepr v))) ∧
    parse_fetch_response 0 "1 (INTERNALDATE \"garbage\")" [] =
      .error (.valueError "couldn't parse date 'garbage'") := by
  refine ⟨?_, rfl⟩
  intro sysOff v h
  simp [_convert_INTERNALDATE, h]

/-- Witness for `internaldate_malformed_raises` at the text
`garbage`. -/
theorem internaldate_malformed_raises_witness :
    _convert_INTERNALDATE 0 (.text "garbage") =
      .error (.valueError "couldn't parse date 'garbage'") :=
  internaldate_malformed_raises.1 0 (.text "garbage") rfl

/-- Claim C5: a literal token whose bound payload length differs from
the declared size raises `ParseError('Expecting literal of size N, got
L')` reporting both sizes, and a literal token with no bound payload
raises the same error kind (`ParseError('No literal corresponds to
...')`); the parser never truncates, pads or substitutes. -/
theorem literal_mismatch_errors :
    (∀ (t : Token) (n : Int) (payload : String),
      t.text.data.head? = some '{' →
      pyIntOfString (tokenInner t.text) = some n →
      t.lit = some payload →
      (payload.length : Int) ≠ n →
      scalarAtom t = .error (.parseError ("Expecting literal of size " ++ toString n ++
        ", got " ++ toString payload.length))) ∧
    (∀ (t : Token) (n : Int),
      t.text.data.head? = some '{' →
      pyIntOfString (tokenInner t.text) = some n →
      t.lit = none →
      scalarAtom t = .error (.parseError ("No literal corresponds to " ++
        pyReprStr t.text))) ∧
    parse_response "{3}" ["ab"] =
      .error (.parseError "Expecting literal of size 3, got 2") ∧
    parse_response "{3}" [] =
      .error (.parseError "No literal corresponds to '{3}'") := by
  have hnil : ∀ t : Token, t.text.data.head? = some '{' → ¬(t.text = "NIL") := by
    intro t hh he
    rw [he] at hh
    exact absurd hh (by decide)
  refine ⟨?_, ?_, rfl, rfl⟩
  · intro t n payload hh hint hlit hlen
    simp only [scalarAtom, if_neg (hnil t hh), hh, if_pos rfl, hint, hlit, if_pos hlen]
    simp
  · intro t n hh hint hlit
    simp only [scalarAtom, if_neg (hnil t hh), hh, if_pos rfl, hint, hlit]
    simp

/-- Witness for `literal_mismatch_errors` at the literal token
`\x7b3\x7d` with a two-byte payload, and with no payload. -/
theorem literal_mismatch_errors_witness :
    scalarAtom ⟨"{3}", some "ab"⟩ =
      .error (.parseError "Expecting literal of size 3, got 2") ∧
    scalarAtom ⟨"{3}", none⟩ =
      .error (.parseError "No literal corresponds to '{3}'") :=
  ⟨literal_mismatch_errors.1 ⟨"{3}", some "ab"⟩ 3 "ab" rfl rfl rfl (by decide),
   literal_mismatch_errors.2.1 ⟨"{3}", none⟩ 3 rfl rfl rfl⟩

/-- Claim C3 (counterexample): the grammar-valid INTERNALDATE text
`01-Jan-0001 00:00:00 +0100` passes the regex and the datetime
constructor, but converting it to UTC shifts it below year 1, so the
decoder raises `OverflowError('date value out of range')` instead of
producing a datetime. -/
theorem internaldate_overflow_cex :
    internalDateMatch "01-Jan-0001 00:00:00 +0100" =
      some ⟨1, "Jan", 1, 0, 0, 0, false, 1, 0⟩ ∧
    _convert_INTERNALDATE 0 (.text "01-Jan-0001 00:00:00 +0100") =
      .error (.overflowError "date value out of range") ∧
    parse_fetch_response 0 "1 (INTERNALDATE \"01-Jan-0001 00:00:00 +0100\")" [] =
      .error (.overflowError "date value out of range") :=
  ⟨rfl, rfl, rfl⟩

/-- Claim C3 (amended): an INTERNALDATE text matching the protocol
grammar and denoting a valid calendar datetime decodes to the naive
datetime obtained by interpreting the calendar fields at the declared
zone offset (negative offsets included) and re-expressing the instant
in the host zone `sysOff` — provided both zone offsets are strictly
within one day and both the UTC conversion and its host-zone
re-expression stay within the representable datetime range
(years 1..9999); a shifted value that leaves the range raises
`OverflowError` instead. For `16-Mar-2010 16:45:32 +0000` the result
is UTC `2010-03-16T16:45:32` converted to local time. -/
theorem internaldate_normalization :
    (∀ (sysOff : Int) (s : String) (g : IDGroups) (mon : Int),
      internalDateMatch s = some g →
      Mon2num g.mon = some mon →
      datetimeValid g.year mon g.day g.hour g.minute g.second →
      -1440 < zoneOffsetMinutes g →
      zoneOffsetMinutes g < 1440 →
      -1440 < sysOff →
      sysOff < 1440 →
      inDatetimeRange (civilSecs g.year mon g.day g.hour g.minute g.second -
        zoneOffsetMinutes g * 60) →
      inDatetimeRange (civilSecs g.year mon g.day g.hour g.minute g.second -
        zoneOffsetMinutes g * 60 + sysOff * 60) →
      _convert_INTERNALDATE sysOff (.text s) =
        .ok (civilSecs g.year mon g.day g.hour g.minute g.second
              - zoneOffsetMinutes g * 60 + sysOff * 60)) ∧
    (∀ sysOff : Int, -1440 < sysOff → sysOff < 1440 →
      _convert_INTERNALDATE sysOff (.text "16-Mar-2010 16:45:32 +0000") =
        .ok (civilSecs 2010 3 16 16 45 32 + sysOff * 60)) ∧
    parse_fetch_response 60 "7 (INTERNALDATE \"16-Mar-2010 16:45:32 +0000\")" [] =
      .ok [(7, [("SEQ", .pv (.int 7)),
                ("INTERNALDATE", .dt (civilSecs 2010 3 16 16 45 32 + 60 * 60))])] := by
  have hgen : ∀ (sysOff : Int) (s : String) (g : IDGroups) (mon : Int),
      internalDateMatch s = some g →
      Mon2num g.mon = some mon →
      datetimeValid g.year mon g.day g.hour g.minute g.second →
      -1440 < zoneOffsetMinutes g →
      zoneOffsetMinutes g < 1440 →
      -1440 < sysOff →
      sysOff < 1440 →
      inDatetimeRange (civilSecs g.year mon g.day g.hour g.minute g.second -
        zoneOffsetMinutes g * 60) →
      inDatetimeRange (civilSecs g.year mon g.day g.hour g.minute g.second -
        zoneOffsetMinutes g * 60 + sysOff * 60) →
      _convert_INTERNALDATE sysOff (.text s) =
        .ok (civilSecs g.year mon g.day g.hour g.minute g.second
              - zoneOffsetMinutes g * 60 + sysOff * 60) := by
    intro sysOff s g mon hm hmon hvalid hd1 hd2 hs1 hs2 hutc hloc
    have hps : pyStr (ParsedValue.text s) = s := rfl
    simp only [_convert_INTERNALDATE, hps, hm, hmon, pyDatetime, if_pos hvalid,
      if_pos (And.intro hd1 hd2), if_pos hutc, if_pos (And.intro hs1 hs2), if_pos hloc]
  refine ⟨hgen, ?_, rfl⟩
  intro sysOff hs1 hs2
  have hz : zoneOffsetMinutes ⟨16, "Mar", 2010, 16, 45, 32, false, 0, 0⟩ = 0 := rfl
  have hloc : inDatetimeRange (civilSecs 2010 3 16 16 45 32 -
      zoneOffsetMinutes ⟨16, "Mar", 2010, 16, 45, 32, false, 0, 0⟩ * 60 + sysOff * 60) := by
    have hC : civilSecs 2010 3 16 16 45 32 = 1268757932 := by decide
    have hmin : datetimeMinSecs = -62135596800 := by decide
    have hmax : datetimeMaxSecs = 253402300799 := by decide
    unfold inDatetimeRange
    rw [hz, hC, hmin, hmax]
    omega
  have h3 := hgen sysOff "16-Mar-2010 16:45:32 +0000"
    ⟨16, "Mar", 2010, 16, 45, 32, false, 0, 0⟩ 3 rfl rfl (by decide) (by decide)
    (by decide) hs1 hs2 (by decide) hloc
  rw [h3, hz]
  norm_num

/-- Witness for `internaldate_normalization` at
` 9-Feb-2007 17:08:08 -0430` (a negative zone offset) with host
offset 0. -/
theorem internaldate_normalization_witness :
    _convert_INTERNALDATE 0 (.text " 9-Feb-2007 17:08:08 -0430") =
      .ok (civilSecs 2007 2 9 17 8 8 -
        zoneOffsetMinutes ⟨9, "Feb", 2007, 17, 8, 8, true, 4, 30⟩ * 60 + 0 * 60) :=
  internaldate_normalization.1 0 " 9-Feb-2007 17:08:08 -0430"
    ⟨9, "Feb", 2007, 17, 8, 8, true, 4, 30⟩ 2 rfl rfl (by decide) (by decide)
    (by decide) (by decide) (by decide) (by decide) (by decide)

/-- Claim C6: a token stream opening a parenthesised group that never
closes before the stream ends makes `parse_response` raise
`ParseError('Tuple incomplete before "(..."')` identifying the
accumulated partial list (here: the group is followed only by
well-formed non-parenthesis tokens, so the unmatched `(` is the only
defect). -/
theorem unmatched_open_error :
    (∀ (text : String) (lits : List String) (pre : List Token) (vals : List ParsedValue),
      lex text lits = ⟨"(", none⟩ :: pre →
      (∀ t ∈ pre, t.text ≠ "(" ∧ t.text ≠ ")") →
      mapScalar pre = .ok vals →
      parse_response text lits =
        .error (.parseError ("Tuple incomplete before \"(" ++
          joinSep " " (vals.map pyStr) ++ "\""))) := by
  intro text lits pre vals hlex hnp hmap
  rw [parse_response, gen_parsed_response, hlex]
  have hlen : (Token.mk "(" none :: pre).length + 1 = (pre.length + 1) + 1 := by simp
  rw [hlen]
  have hatom : atom ⟨"(", none⟩ pre = atomGroup (pre.length + 1) pre [] := by
    rw [atom, if_pos rfl]
  rw [genLoop, hatom,
    atomGroup_incomplete pre (pre.length + 1) [] vals (by omega) hnp hmap]
  rfl

/-- Witness for `unmatched_open_error` on the input `(1 2`. -/
theorem unmatched_open_error_witness :
    parse_response "(1 2" [] =
      .error (.parseError "Tuple incomplete before \"(1 2\"") :=
  unmatched_open_error "(1 2" [] [⟨"1", none⟩, ⟨"2", none⟩] [.int 1, .int 2]
    rfl (by decide) rfl

/-- A step through `fieldsLoop` over a list prefix: if the prefix
succeeds, the run over the appended list continues from the prefix's
result. -/
lemma fieldsLoop_append_ok (sysOff : Int) (xs ys : List (ParsedValue × ParsedValue))
    (i i₁ : Int) (r r₁ : FetchRecord)
    (h : fieldsLoop sysOff xs i r = .ok (i₁, r₁)) :
    fieldsLoop sysOff (xs ++ ys) i r = fieldsLoop sysOff ys i₁ r₁ := by
  rw [fieldsLoop_append, h]

/-- Claim C1 (counterexample): in the batch `7 (UID 42 SEQ 99)` the
message has a `UID` field with value 42, yet the returned record's
`SEQ` entry is 99, not the sequence number 7 — a field literally named
`SEQ` overwrites the recorded sequence number. -/
theorem fetch_uid_seq_overwrite_cex :
    parse_fetch_response 0 "7 (UID 42 SEQ 99)" [] =
      .ok [(42, [("SEQ", FieldVal.pv (.int 99))])] ∧
    assocFind [("SEQ", FieldVal.pv (.int 99))] "SEQ" ≠ some (FieldVal.pv (.int 7)) := by
  refine ⟨rfl, ?_⟩
  intro h
  simp [assocFind] at h

/-- Claim C1 (amended): when a message's field list contains exactly
one `UID` field (case-insensitively), whose value converts to the
integer u, and no field of the message is itself named `SEQ`
(case-insensitively), a successful decode stores the record under key
u while its `SEQ` entry still holds the original sequence number; in
particular `7 (UID 42 FLAGS (x y))` decodes to a record at key 42 with
`SEQ = 7` and `FLAGS = (x, y)`. -/
theorem fetch_uid_key_substitution :
    (∀ (sysOff s u : Int) (pre post : List (ParsedValue × ParsedValue))
       (uidName : String) (uidVal : ParsedValue) (key : Int) (rec : FetchRecord),
      pyUpper uidName = "UID" →
      pyInt uidVal = some u →
      (∀ p ∈ pre, isUIDPair p = false) →
      (∀ p ∈ post, isUIDPair p = false) →
      (∀ p ∈ pre ++ (ParsedValue.text uidName, uidVal) :: post, wordIs p "SEQ" = false) →
      fieldsLoop sysOff (pre ++ (ParsedValue.text uidName, uidVal) :: post) s
        [("SEQ", FieldVal.pv (.int s))] = .ok (key, rec) →
      key = u ∧ assocFind rec "SEQ" = some (FieldVal.pv (.int s))) ∧
    (∀ sysOff : Int,
      parse_fetch_response sysOff "7 (UID 42 FLAGS (x y))" [] =
        .ok [(42, [("SEQ", .pv (.int 7)),
                   ("FLAGS", .pv (.list [.text "x", .text "y"]))])]) := by
  constructor
  · intro sysOff s u pre post uidName uidVal key rec hn hv hpre hpost hseq h
    cases hps : fieldsLoop sysOff pre s [("SEQ", FieldVal.pv (.int s))] with
    | error e =>
        rw [fieldsLoop_append, hps] at h
        exact Except.noConfusion h
    | ok p =>
        obtain ⟨i₁, r₁⟩ := p
        rw [fieldsLoop_append_ok sysOff pre _ s i₁ _ r₁ hps] at h
        simp only [fieldsLoop, if_pos hn, _int_or_error, hv] at h
        refine ⟨fieldsLoop_key_no_uid sysOff post u r₁ key rec hpost h, ?_⟩
        have h2 := fieldsLoop_find_preserve sysOff "SEQ" post u r₁ key rec
          (fun q hq => hseq q (by simp [hq])) h
        have h3 := fieldsLoop_find_preserve sysOff "SEQ" pre s _ i₁ r₁
          (fun q hq => hseq q (by simp [hq])) hps
        rw [h2, h3]
        simp [assocFind]
  · intro sysOff
    rfl

/-- Witness for `fetch_uid_key_substitution` on the field list
`UID 42 FLAGS (x y)` of message 7. -/
theorem fetch_uid_key_substitution_witness :
    (42 : Int) = 42 ∧
    assocFind [("SEQ", FieldVal.pv (.int 7)),
      ("FLAGS", FieldVal.pv (.list [.text "x", .text "y"]))] "SEQ" =
      some (FieldVal.pv (.int 7)) :=
  fetch_uid_key_substitution.1 0 7 42 []
    [(ParsedValue.text "FLAGS", ParsedValue.list [.text "x", .text "y"])]
    "UID" (ParsedValue.int 42) 42
    [("SEQ", FieldVal.pv (.int 7)),
     ("FLAGS", FieldVal.pv (.list [.text "x", .text "y"]))]
    rfl rfl (by decide) (by decide) (by decide) rfl

/-- Claim C10: a successfully decoded record's key set is exactly
`SEQ` together with the upper-cased names of the message's non-UID
fields — in particular no `UID` entry is ever stored — and a UID field
whose value is not integer-convertible raises
`ParseError('invalid UID: ...')` (equivalently, no such field list can
decode successfully). -/
theorem record_key_set :
    (∀ (sysOff msgId : Int) (fields : List ParsedValue) (key : Int) (rec : FetchRecord),
      fieldsLoop sysOff (toPairs fields) msgId [("SEQ", FieldVal.pv (.int msgId))] =
        .ok (key, rec) →
      (∀ k : String, (assocFind rec k).isSome ↔
        (k = "SEQ" ∨ (k ≠ "UID" ∧ ∃ p ∈ toPairs fields, wordIs p k = true))) ∧
      assocFind rec "UID" = none) ∧
    (∀ (sysOff i : Int) (uidName : String) (v : ParsedValue)
       (rest : List (ParsedValue × ParsedValue)) (r : FetchRecord),
      pyUpper uidName = "UID" →
      pyInt v = none →
      fieldsLoop sysOff ((ParsedValue.text uidName, v) :: rest) i r =
        .error (.parseError ("invalid UID: " ++ pyRepr v))) ∧
    (∀ (sysOff i : Int) (uidName : String) (v : ParsedValue)
       (xs : List (ParsedValue × ParsedValue)) (r : FetchRecord),
      (ParsedValue.text uidName, v) ∈ xs →
      pyUpper uidName = "UID" →
      pyInt v = none →
      ∀ (key : Int) (rec : FetchRecord), fieldsLoop sysOff xs i r ≠ .ok (key, rec)) := by
  refine ⟨?_, ?_, ?_⟩
  · intro sysOff msgId fields key rec h
    have hinit : ∀ k : String,
        (assocFind [("SEQ", FieldVal.pv (ParsedValue.int msgId))] k).isSome ↔ k = "SEQ" := by
      intro k
      by_cases hk : "SEQ" = k
      · subst hk; simp [assocFind]
      · simp only [assocFind, if_neg hk, Option.isSome_none, Bool.false_eq_true, false_iff]
        exact fun hkk => hk hkk.symm
    constructor
    · intro k
      rw [fieldsLoop_keys sysOff k (toPairs fields) msgId _ key rec h, hinit k]
    · cases ha : assocFind rec "UID" with
      | none => rfl
      | some x =>
          exfalso
          have hs : (assocFind rec "UID").isSome = true := by rw [ha]; rfl
          rcases (fieldsLoop_keys sysOff "UID" (toPairs fields) msgId _ key rec h).mp hs
            with hr | ⟨hne, _⟩
          · simp [assocFind] at hr
          · exact hne rfl
  · intro sysOff i uidName v rest r hn hv
    simp only [fieldsLoop, if_pos hn, _int_or_error, hv]
    rfl
  · intro sysOff i uidName v xs r hmem hn hv
    exact fieldsLoop_bad_uid_not_ok sysOff uidName v hn hv xs i r hmem

/-- Witness for `record_key_set`: the field list
`uid 5 flags NIL` of message 3 yields the record keys `SEQ`, `FLAGS`
(and no `UID` entry), and a Nil-valued UID field raises
`invalid UID`. -/
theorem record_key_set_witness :
    ((assocFind [("SEQ", FieldVal.pv (.int 3)), ("FLAGS", FieldVal.pv .nil)]
        "FLAGS").isSome ↔
      ("FLAGS" = "SEQ" ∨ ("FLAGS" ≠ "UID" ∧ ∃ p ∈ toPairs [ParsedValue.text "uid",
        ParsedValue.int 5, ParsedValue.text "flags", ParsedValue.nil],
        wordIs p "FLAGS" = true))) ∧
    assocFind [("SEQ", FieldVal.pv (.int 3)), ("FLAGS", FieldVal.pv .nil)] "UID" = none ∧
    fieldsLoop 0 [(ParsedValue.text "UID", ParsedValue.nil)] 1 [] =
      .error (.parseError "invalid UID: None") := by
  have h := record_key_set.1 0 3 [ParsedValue.text "uid", ParsedValue.int 5,
    ParsedValue.text "flags", ParsedValue.nil] 5
    [("SEQ", FieldVal.pv (.int 3)), ("FLAGS", FieldVal.pv .nil)] rfl
  exact ⟨h.1 "FLAGS", h.2, record_key_set.2.1 0 1 "UID" ParsedValue.nil [] [] rfl rfl⟩

end Imap
